import Mathlib

/-!
Shallow embedding of the ddafa cone-beam CT reconstruction core: the
filter-stage kernels (CUDAFilter.cu / weighting_stage.h), the preloader
stage (preloader_stage.cpp), the legacy SinkStage, and the pipeline
wiring in main.cpp, together with theorems about the specified
invariants.

Buffers of the CUDA kernels are modelled as total functions from indices
to values; a kernel guarded by a bounds test becomes a function that
updates the output buffer inside the guard and leaves it unchanged
outside.  Machine floats are modelled as real numbers; machine integers
as Nat / Int with C truncated division where it matters.
-/

namespace Ddafa

/-- Detector geometry fields used by the filter stage, mirroring
`common::Geometry`: `det_pixels_row` is the number of pixels per row
(the horizontal count, `n_h` in the spec), `det_pixels_column` is the
number of pixels per column (the vertical count, `n_v`), and
`det_pixel_size_horiz` is the horizontal pixel pitch `tau`. -/
structure Geometry where
  det_pixels_row : Nat
  det_pixels_column : Nat
  det_pixel_size_horiz : ℝ

/-- Fuel-driven ceiling base-2 logarithm: `clog2_aux fuel n` computes
`ceil (log2 n)` provided `n ≤ fuel`, recursing on `ceil (n / 2)`. -/
def clog2_aux : Nat → Nat → Nat
  | 0, _ => 0
  | fuel + 1, n => if n ≤ 1 then 0 else clog2_aux fuel ((n + 1) / 2) + 1

/-- Ceiling base-2 logarithm, executable by structural recursion. -/
def clog2 (n : Nat) : Nat := clog2_aux n n

/-- Length computed in `Filter::Filter`:
`2 * pow(2, ceil(log2(det_pixels_column)))`.  For `n >= 1` the value
`ceil (log2 n)` is `clog2 n`; for `n = 0` the floating-point chain
`2 * pow(2, ceil(log2 0)) = 2 * pow(2, -inf) = 0` yields `0`. -/
def filter_length_of (n : Nat) : Nat :=
  if n = 0 then 0 else 2 * 2 ^ clog2 n

/-- The `filter_length_` member set at `Filter` construction: the source
derives it from `det_pixels_column` (the row count), not from the
horizontal pixel count. -/
def Filter_filter_length (geo : Geometry) : Nat :=
  filter_length_of geo.det_pixels_column

/-- Kernel `createFilter` of CUDAFilter.cu, at one index: given the
signed index value `j` and the horizontal pixel pitch `tau`, the ramp
kernel sample is `1/8 * 1/tau^2` at `j = 0`, `0` for even nonzero `j`,
and `-1 / (2 j^2 pi^2 tau^2)` for odd `j`.  The C test `j % 2 == 0`
uses truncated remainder, `Int.tmod` here. -/
noncomputable def createFilter (j : ℤ) (tau : ℝ) : ℝ :=
  if j = 0 then (1 / 8) * (1 / tau ^ 2)
  else if j.tmod 2 = 0 then 0
  else -1 / (2 * (j : ℝ) ^ 2 * Real.pi ^ 2 * tau ^ 2)

/-- Kernel `convertProjection` of CUDAFilter.cu: zero-pads each row of
`input` (significant width `width`, `height` rows) into `output` at
width `filter_length`; indices outside the guarded range keep the
previous contents of `output`.  Buffers are indexed as `buf x y` =
element `x` of row `y`. -/
def convertProjection (output input : Nat → Nat → ℝ)
    (width height filter_length : Nat) : Nat → Nat → ℝ :=
  fun x y =>
    if x < filter_length ∧ y < height then
      if x < width then input x y else 0
    else output x y

/-- Kernel `convertFiltered` of CUDAFilter.cu: writes back each of the
first `width` samples of each row of `input` divided by
`filter_length`; indices outside the guarded range keep the previous
contents of `output`. -/
noncomputable def convertFiltered (output input : Nat → Nat → ℝ)
    (width height filter_length : Nat) : Nat → Nat → ℝ :=
  fun x y =>
    if x < width ∧ y < height then input x y / (filter_length : ℝ)
    else output x y

/-- Kernel `createK` of CUDAFilter.cu: overwrites each complex element
(below `filter_length`) with `tau * fabsf(sqrtf(x^2 + y^2))` in both the
real and the imaginary component.  Complex values are pairs of reals. -/
noncomputable def createK (data : Nat → ℝ × ℝ) (filter_length : Nat) (tau : ℝ) :
    Nat → ℝ × ℝ :=
  fun x =>
    if x < filter_length then
      let result := tau * |Real.sqrt ((data x).1 ^ 2 + (data x).2 ^ 2)|
      (result, result)
    else data x

/-- Kernel `applyFilter` of CUDAFilter.cu: for each in-range element,
multiplies the real part of the data by the real part of the filter and
the imaginary part of the data by the imaginary part of the filter. -/
noncomputable def applyFilter (data : Nat → Nat → ℝ × ℝ) (filter : Nat → ℝ × ℝ)
    (filter_length data_height : Nat) : Nat → Nat → ℝ × ℝ :=
  fun x y =>
    if x < filter_length ∧ y < data_height then
      ((data x y).1 * (filter x).1, (data x y).2 * (filter x).2)
    else data x y

/-- True complex multiplication on pairs of reals, for comparison with
`applyFilter`. -/
noncomputable def complexMul (a b : ℝ × ℝ) : ℝ × ℝ :=
  (a.1 * b.1 - a.2 * b.2, a.1 * b.2 + a.2 * b.1)

/-- The j-index initialisation loop of `Filter::filterProcessor`:
`j` starts at `-((filter_length - 2) / 2)` (C truncated division) and
the loop `for (k = 0; k <= filter_length; ++k, ++j)` stores `j` at index
`k`.  The result is the list of `(index, value)` writes the loop
performs on the `filter_length`-element host buffer. -/
def jLoopWrites (filter_length : Nat) : List (Nat × ℤ) :=
  (List.range (filter_length + 1)).map
    (fun k => (k, -(((filter_length : ℤ) - 2).tdiv 2) + k))

/-- One worker loop of a pipeline stage (the shape of
`preloader_stage::run` and its siblings): repeatedly pull one item; if
it is the sentinel (`valid` is false), push the sentinel downstream and
return, ignoring anything after it; otherwise process the item with `f`
and push the result. -/
def stage_run {P Q : Type} (f : P → Q) (valid : P → Bool) (sent : Q) :
    List P → List Q
  | [] => []
  | p :: ps => if valid p then f p :: stage_run f valid sent ps else [sent]

/-- A linear chain of stages, as wired by `pipeline.connect` in
main.cpp: the output stream of each stage is the input stream of the
next. -/
def pipeline_run {P : Type} (valid : P → Bool) (sent : P) :
    List (P → P) → List P → List P
  | [], input => input
  | f :: fs, input => pipeline_run valid sent fs (stage_run f valid sent input)

/-- A stream on a pipeline edge that carries exactly one poison pill, as
its last element, preceded only by valid items. -/
def good_stream {P : Type} (valid : P → Bool) (sent : P) (xs : List P) : Prop :=
  ∃ items, xs = items ++ [sent] ∧ ∀ p ∈ items, valid p = true

/-- One pull observed by `preloader_stage::run`: a valid projection, the
sentinel, or a CUDA failure raised while handling the pull (the three
exception types the stage catches). -/
inductive PullEvent (P : Type) where
  | item (p : P)
  | sentinel
  | bad_alloc (msg : String)
  | invalid_argument (msg : String)
  | runtime_error (msg : String)

/-- Observable outcome of one run of a stage worker: the items pushed
downstream, the log lines emitted, and the exception re-raised (if
any). -/
structure StageOutcome (Q : Type) where
  outputs : List Q
  logs : List String
  raised : Option String

/-- The control flow of `preloader_stage::run` (preloader_stage.cpp):
valid items are uploaded and pushed; on the sentinel the loop breaks,
pushes a default-constructed (invalid) projection and logs at info; a
caught CUDA error logs its cause at fatal and re-raises
`stage_runtime_error` with no further pushes. -/
def preloader_loop {P Q : Type} (upload : P → Q) (sentQ : Q) :
    List (PullEvent P) → StageOutcome Q
  | [] => ⟨[], [], none⟩
  | .item p :: rest =>
      let r := preloader_loop upload sentQ rest
      ⟨upload p :: r.outputs, r.logs, r.raised⟩
  | .sentinel :: _ =>
      ⟨[sentQ], ["Uploaded all projections to the device(s)"], none⟩
  | .bad_alloc m :: _ =>
      ⟨[], ["preloader_stage::run() encountered a bad_alloc: " ++ m],
        some "preloader_stage::run() failed"⟩
  | .invalid_argument m :: _ =>
      ⟨[], ["preloader_stage::run() passed an invalid argument to the CUDA runtime: " ++ m],
        some "preloader_stage::run() failed"⟩
  | .runtime_error m :: _ =>
      ⟨[], ["preloader_stage::run() caused a CUDA runtime error: " ++ m],
        some "preloader_stage::run() failed"⟩

/-- A host projection as pulled by the preloader: width, height, index
and rotation angle (the angle modelled as a rational). -/
structure host_p where
  width : Nat
  height : Nat
  idx : Nat
  phi : ℚ
deriving DecidableEq

/-- A device projection as pushed by the preloader: the same metadata,
the validity flag, and the stream handle it carries. -/
structure device_p where
  width : Nat
  height : Nat
  idx : Nat
  phi : ℚ
  valid : Bool
  stream : Nat
deriving DecidableEq

/-- The device-side actions of the preloader body, in program order. -/
inductive upload_event where
  | pool_allocate (w h : Nat)
  | create_concurrent_stream (s : Nat)
  | fill_async (s w h : Nat)
  | copy_async (s w h : Nat)
  | synchronize_stream (s : Nat)
  | push (q : device_p)
deriving DecidableEq

/-- Whether an event is a stream synchronization. -/
def is_sync : upload_event → Bool
  | .synchronize_stream _ => true
  | _ => false

/-- Whether an event is a push downstream. -/
def is_push : upload_event → Bool
  | .push _ => true
  | _ => false

/-- Whether an event is the asynchronous zero-fill. -/
def is_fill : upload_event → Bool
  | .fill_async _ _ _ => true
  | _ => false

/-- Whether an event is the asynchronous host-to-device copy. -/
def is_copy : upload_event → Bool
  | .copy_async _ _ _ => true
  | _ => false

/-- The body of `preloader_stage::run` for one valid projection `p`,
with `s` the identifier of the stream created for it: allocate a 2-D
pool buffer of the projection extents, create a concurrent stream,
asynchronously zero-fill then copy on that stream, synchronize the
stream, and push the device projection with unchanged metadata,
`valid = true`, carrying the stream. -/
def preloader_process_one (p : host_p) (s : Nat) : List upload_event :=
  [ .pool_allocate p.width p.height,
    .create_concurrent_stream s,
    .fill_async s p.width p.height,
    .copy_async s p.width p.height,
    .synchronize_stream s,
    .push ⟨p.width, p.height, p.idx, p.phi, true, s⟩ ]

/-- The path hard-coded in `SinkStage::run` (SinkStage.h). -/
def hardcoded_sink_path : String := "/home/ufxray/Schreibtisch/Feldkamp/out.tif"

/-- An image as received by the legacy `SinkStage`, reduced to an
identifier and the validity flag. -/
structure sink_image where
  data_id : Nat
  valid : Bool
deriving DecidableEq

/-- The worker loop of the legacy `SinkStage::run`: every valid image is
saved to the hard-coded path (the constructed `target_dir_` is never
read); the poison pill breaks the loop.  The result is the list of
`(path, image)` writes. -/
def SinkStage_run (target_dir : String) : List sink_image → List (String × Nat)
  | [] => []
  | img :: rest =>
      if img.valid then
        (hardcoded_sink_path, img.data_id) :: SinkStage_run target_dir rest
      else []

/-- Decimal digits of `n`, zero-padded on the left to six places. -/
def pad6 (n : Nat) : String :=
  let s := toString n
  String.mk (List.replicate (6 - s.length) '0') ++ s

/-- Modelled from the spec: the volume output filename format
`prefix_indexpadded.ext` (six zero-padded digits) that the Sink is
specified to produce; the repository slice contains no sink
implementation realizing it. -/
def spec_slice_filename (pfx : String) (idx : Nat) (ext : String) : String :=
  pfx ++ "_" ++ pad6 idx ++ "." ++ ext

/-- The kinds of stages wired into one per-device pipeline. -/
inductive stage_kind where
  | source
  | preloader
  | weighting
  | filtering
  | reconstruction
  | sink
deriving DecidableEq

/-- The stage order `pipeline.connect` establishes in `launch_pipeline`
(main.cpp). -/
def connected_stage_order : List stage_kind :=
  [.source, .preloader, .weighting, .filtering, .reconstruction, .sink]

/-- One wired pipeline: the identities of the task queue and the sink it
references, the device it runs on, and its stage chain. -/
structure pipeline_instance where
  queue : Nat
  sink : Nat
  device : Nat
  stages : List stage_kind
deriving DecidableEq

/-- `launch_pipeline` of main.cpp: given the shared task-queue pointer
(`none` models a null pointer, on which the function returns without
building anything), the device number and the shared sink, it wires a
task pipeline whose stages are connected in the fixed order. -/
def launch_pipeline (queue : Option Nat) (device : Nat) (sink : Nat) :
    Option pipeline_instance :=
  match queue with
  | none => none
  | some q => some ⟨q, sink, device, connected_stage_order⟩

/-- The launch loop of `main` (main.cpp): one `launch_pipeline` call per
device `d < device_count`, each passed the address of the one task
queue and a reference to the one shared sink. -/
def main_launch (device_count queue sink : Nat) : List (Option pipeline_instance) :=
  (List.range device_count).map (fun d => launch_pipeline (some queue) d sink)

end Ddafa

open Ddafa

/-- The fuel-driven computation agrees with `Nat.clog 2` whenever enough
fuel is supplied. -/
theorem clog2_aux_eq_clog : ∀ (fuel n : Nat), n ≤ fuel →
    clog2_aux fuel n = Nat.clog 2 n := by
  intro fuel
  induction fuel with
  | zero =>
    intro n hn
    have : n = 0 := Nat.le_zero.mp hn
    subst this
    simp [clog2_aux]
  | succ fuel ih =>
    intro n hn
    by_cases h1 : n ≤ 1
    · simp [clog2_aux, h1, Nat.clog_of_right_le_one h1]
    · have h2 : 2 ≤ n := by omega
      have hfuel : (n + 1) / 2 ≤ fuel := by omega
      simp only [clog2_aux, if_neg h1]
      rw [ih _ hfuel, Nat.clog_of_two_le (by norm_num) h2]
      norm_num

/-- `clog2` agrees with `Nat.clog 2`. -/
theorem clog2_eq_clog (n : Nat) : clog2 n = Nat.clog 2 n :=
  clog2_aux_eq_clog n n le_rfl

/-- C1 counterexample: a detector with 2048 columns and 512 rows.  The
construction takes `det_pixels_column = 512`, giving
`filter_length = 2 * 512 = 1024 < 2 * 2048 = 2 * n_h`, so the claim
"filter_length is a power of two and >= 2 * n_h" is false for this
geometry. -/
theorem C1_filter_length_not_ge_two_nh :
    ¬ ((∃ k, Filter_filter_length ⟨2048, 512, (1 : ℝ)⟩ = 2 ^ k) ∧
        2 * (2048 : Nat) ≤ Filter_filter_length ⟨2048, 512, (1 : ℝ)⟩) := by
  intro h
  have h2 := h.2
  revert h2
  decide

/-- C1 (amended): for every geometry with at least one detector row,
`filter_length` is a power of two and is at least twice the row count
`det_pixels_column` (the variable the source actually uses), not the
column count `n_h`. -/
theorem C1_filter_length_pow2_ge_two_nv (geo : Geometry)
    (h : 1 ≤ geo.det_pixels_column) :
    (∃ k, Filter_filter_length geo = 2 ^ k) ∧
      2 * geo.det_pixels_column ≤ Filter_filter_length geo := by
  have hne : geo.det_pixels_column ≠ 0 := Nat.one_le_iff_ne_zero.mp h
  constructor
  · refine ⟨clog2 geo.det_pixels_column + 1, ?_⟩
    simp [Filter_filter_length, filter_length_of, hne, pow_succ, Nat.mul_comm]
  · have hle : geo.det_pixels_column ≤ 2 ^ clog2 geo.det_pixels_column := by
      rw [clog2_eq_clog]
      exact Nat.le_pow_clog (by norm_num) _
    calc 2 * geo.det_pixels_column
        ≤ 2 * 2 ^ clog2 geo.det_pixels_column := Nat.mul_le_mul_left 2 hle
      _ = Filter_filter_length geo := by
          simp [Filter_filter_length, filter_length_of, hne]

/-- C1 witness: the amended statement evaluated at a concrete geometry
with 4 columns and 3 rows, where `filter_length = 2 * 4 = 8`. -/
theorem C1_filter_length_pow2_ge_two_nv_witness :
    1 ≤ (Geometry.mk 4 3 (1 : ℝ)).det_pixels_column ∧
      ((∃ k, Filter_filter_length ⟨4, 3, (1 : ℝ)⟩ = 2 ^ k) ∧
        2 * (Geometry.mk 4 3 (1 : ℝ)).det_pixels_column ≤
          Filter_filter_length ⟨4, 3, (1 : ℝ)⟩) :=
  ⟨by decide, C1_filter_length_pow2_ge_two_nv ⟨4, 3, (1 : ℝ)⟩ (by decide)⟩

/-- C4: the discrete ramp kernel built by `createFilter` equals
`1/8 * 1/tau^2` at `j = 0`, vanishes for even nonzero `j`, and equals
`-1 / (2 j^2 pi^2 tau^2)` for odd `j`. -/
theorem C4_createFilter_ramp_values (j : ℤ) (tau : ℝ) :
    createFilter 0 tau = 1 / 8 * (1 / tau ^ 2) ∧
    (j ≠ 0 → Even j → createFilter j tau = 0) ∧
    (Odd j →
      createFilter j tau = -1 / (2 * (j : ℝ) ^ 2 * Real.pi ^ 2 * tau ^ 2)) := by
  refine ⟨by simp [createFilter], ?_, ?_⟩
  · intro hj he
    obtain ⟨k, hk⟩ := he
    have hdvd : (2 : ℤ) ∣ j := ⟨k, by omega⟩
    simp [createFilter, hj, Int.tmod_eq_zero_of_dvd hdvd]
  · intro ho
    obtain ⟨k, hk⟩ := ho
    have hj : j ≠ 0 := by omega
    have hmod : j.tmod 2 ≠ 0 := by
      intro h
      obtain ⟨m, hm⟩ := Int.dvd_of_tmod_eq_zero h
      omega
    simp [createFilter, hj, hmod]

/-- C4 witness: the odd case evaluated at `j = 3`, `tau = 2`. -/
theorem C4_createFilter_ramp_values_witness :
    Odd (3 : ℤ) ∧
      createFilter 3 2 =
        -1 / (2 * ((3 : ℤ) : ℝ) ^ 2 * Real.pi ^ 2 * (2 : ℝ) ^ 2) :=
  ⟨⟨1, by norm_num⟩,
    (C4_createFilter_ramp_values 3 2).2.2 ⟨1, by norm_num⟩⟩

/-- C5: `createK` overwrites each in-range complex element with
`tau * |X|` (the magnitude `sqrt (re^2 + im^2)`) in both components,
`applyFilter` multiplies real by real and imaginary by imaginary
element-wise, and this differs from a true complex multiply. -/
theorem C5_createK_applyFilter_elementwise
    (data : Nat → ℝ × ℝ) (L : Nat) (tau : ℝ)
    (mat : Nat → Nat → ℝ × ℝ) (filt : Nat → ℝ × ℝ) (H : Nat)
    (x y : Nat) (hx : x < L) (hy : y < H) :
    createK data L tau x =
      (tau * Real.sqrt ((data x).1 ^ 2 + (data x).2 ^ 2),
        tau * Real.sqrt ((data x).1 ^ 2 + (data x).2 ^ 2)) ∧
    applyFilter mat filt L H x y =
      ((mat x y).1 * (filt x).1, (mat x y).2 * (filt x).2) ∧
    (∃ a k : ℝ × ℝ, (a.1 * k.1, a.2 * k.2) ≠ complexMul a k) := by
  refine ⟨?_, ?_, ?_⟩
  · simp only [createK, if_pos hx]
    rw [abs_of_nonneg (Real.sqrt_nonneg _)]
  · simp [applyFilter, hx, hy]
  · refine ⟨(0, 1), (0, 1), ?_⟩
    simp only [complexMul]
    intro h
    have h1 := congrArg Prod.fst h
    norm_num at h1

/-- C5 witness: evaluated at a one-element buffer holding `(3, 4)`, with
`tau = 2` and data matrix constantly `(5, 6)`, filter `(7, 8)`. -/
theorem C5_createK_applyFilter_elementwise_witness :
    0 < 1 ∧
      (createK (fun _ => ((3 : ℝ), (4 : ℝ))) 1 2 0 =
          (2 * Real.sqrt ((3 : ℝ) ^ 2 + (4 : ℝ) ^ 2),
            2 * Real.sqrt ((3 : ℝ) ^ 2 + (4 : ℝ) ^ 2)) ∧
        applyFilter (fun _ _ => ((5 : ℝ), (6 : ℝ)))
            (fun _ => ((7 : ℝ), (8 : ℝ))) 1 1 0 0 =
          ((5 : ℝ) * 7, (6 : ℝ) * 8) ∧
        (∃ a k : ℝ × ℝ, (a.1 * k.1, a.2 * k.2) ≠ complexMul a k)) :=
  ⟨by decide,
    C5_createK_applyFilter_elementwise (fun _ => ((3 : ℝ), (4 : ℝ))) 1 2
      (fun _ _ => ((5 : ℝ), (6 : ℝ))) (fun _ => ((7 : ℝ), (8 : ℝ))) 1 0 0
      (by decide) (by decide)⟩

/-- C6 counterexample: with width `n_h = 2` and filter length `L = 1`
(the claim quantifies over any filter length), the sample at index
`1 < n_h` of row `0` is not copied: the kernel guard `x <
filter_length` fails, so the output keeps its previous value `42`
instead of the input value `2`. -/
theorem C6_convertProjection_counterexample :
    convertProjection (fun _ _ => (42 : ℝ)) (fun x _ => (x : ℝ) + 1)
        2 1 1 1 0 = 42 ∧
      ((1 : ℕ) : ℝ) + 1 = 2 ∧ (42 : ℝ) ≠ 2 := by
  refine ⟨?_, by norm_num, by norm_num⟩
  simp [convertProjection]

/-- C6 (amended): provided `n_h ≤ L`, the padding kernel copies each
row's first `n_h` samples unchanged and zeroes the samples at indices
`n_h..L-1`, for every row below `height`; and the unpadding kernel
writes back each of the first `n_h` samples of each row divided by
`L`. -/
theorem C6_pad_unpad (output input output2 input2 : Nat → Nat → ℝ)
    (width height L : Nat) (hwl : width ≤ L) (x y : Nat) (hy : y < height) :
    (x < width → convertProjection output input width height L x y = input x y) ∧
    (width ≤ x → x < L → convertProjection output input width height L x y = 0) ∧
    (x < width →
      convertFiltered output2 input2 width height L x y =
        input2 x y / (L : ℝ)) := by
  refine ⟨?_, ?_, ?_⟩
  · intro hx
    have hxL : x < L := lt_of_lt_of_le hx hwl
    simp [convertProjection, hxL, hy, hx]
  · intro h1 h2
    simp [convertProjection, h2, hy, Nat.not_lt.mpr h1]
  · intro hx
    simp [convertFiltered, hx, hy]

/-- C6 witness: the amended statement at `n_h = 2`, `L = 4`, a 1-row
projection, evaluated at sample `x = 0` of row `0` (and a zeroed sample
via `x = 2` is covered by the theorem at other indices). -/
theorem C6_pad_unpad_witness :
    (2 ≤ 4 ∧ (0 : ℕ) < 1 ∧ (0 : ℕ) < 2) ∧
      convertProjection (fun _ _ => (42 : ℝ)) (fun _ _ => (7 : ℝ))
        2 1 4 0 0 = 7 :=
  ⟨⟨by decide, by decide, by decide⟩,
    (C6_pad_unpad (fun _ _ => (42 : ℝ)) (fun _ _ => (7 : ℝ))
        (fun _ _ => (0 : ℝ)) (fun _ _ => (0 : ℝ)) 2 1 4 (by decide) 0 0
        (by decide)).1 (by decide)⟩

/-- C10: the j-index loop of `Filter::filterProcessor` runs `k` from `0`
to `filter_length` inclusive, so it also writes at index
`filter_length`, one past the end of the `filter_length`-element
buffer; at `filter_length = 4` the writes are exactly
`(0,-1), (1,0), (2,1), (3,2), (4,3)` — indices `0..3` hold the
consecutive values `-(L-2)/2 .. L/2`, and the write at index `4 = L` is
out of bounds.  In general the loop always writes at index
`filter_length`. -/
theorem C10_jLoop_writes_out_of_bounds :
    jLoopWrites 4 = [(0, -1), (1, 0), (2, 1), (3, 2), (4, 3)] ∧
      ((4 : Nat), (3 : ℤ)) ∈ jLoopWrites 4 ∧
      ¬ (∀ w ∈ jLoopWrites 4, w.1 < 4) ∧
      ∀ L : Nat, (L, -(((L : ℤ) - 2).tdiv 2) + L) ∈ jLoopWrites L := by
  refine ⟨by decide, by decide, by decide, ?_⟩
  intro L
  exact List.mem_map.mpr ⟨L, List.mem_range.mpr (by omega), rfl⟩

/-- A stage worker pulling valid items followed by the sentinel maps the
items and emits exactly one sentinel, ignoring anything queued after
it. -/
theorem stage_run_valid_append {P Q : Type} (f : P → Q) (valid : P → Bool)
    (sent : Q) (items : List P) (s : P) (rest : List P)
    (hv : ∀ p ∈ items, valid p = true) (hs : valid s = false) :
    stage_run f valid sent (items ++ s :: rest) = items.map f ++ [sent] := by
  induction items with
  | nil => simp [stage_run, hs]
  | cons p ps ih =>
    have hp : valid p = true := hv p (List.mem_cons_self p ps)
    simp [stage_run, hp, ih (fun x hx => hv x (List.mem_cons_of_mem p hx))]

/-- A validity-preserving stage maps a single-sentinel stream to a
single-sentinel stream. -/
theorem stage_run_good {P : Type} (f : P → P) (valid : P → Bool) (sent : P)
    (hs : valid sent = false)
    (hf : ∀ p, valid p = true → valid (f p) = true)
    (xs : List P) (hxs : good_stream valid sent xs) :
    good_stream valid sent (stage_run f valid sent xs) := by
  obtain ⟨items, rfl, hv⟩ := hxs
  rw [show items ++ [sent] = items ++ sent :: [] from rfl,
    stage_run_valid_append f valid sent items sent [] hv hs]
  refine ⟨items.map f, rfl, ?_⟩
  intro p hp
  obtain ⟨a, ha, rfl⟩ := List.mem_map.mp hp
  exact hf a (hv a ha)

/-- A chain of validity-preserving stages maps a single-sentinel stream
to a single-sentinel stream. -/
theorem pipeline_run_good {P : Type} (valid : P → Bool) (sent : P)
    (hs : valid sent = false) :
    ∀ (stages : List (P → P)),
      (∀ f ∈ stages, ∀ p, valid p = true → valid (f p) = true) →
      ∀ input, good_stream valid sent input →
        good_stream valid sent (pipeline_run valid sent stages input) := by
  intro stages
  induction stages with
  | nil =>
    intro _ input hin
    simpa [pipeline_run] using hin
  | cons f fs ih =>
    intro hf input hin
    have hf0 : ∀ p, valid p = true → valid (f p) = true :=
      hf f (List.mem_cons_self f fs)
    have hfs : ∀ g ∈ fs, ∀ p, valid p = true → valid (g p) = true :=
      fun g hg => hf g (List.mem_cons_of_mem f hg)
    simpa [pipeline_run] using
      ih hfs (stage_run f valid sent input)
        (stage_run_good f valid sent hs hf0 input hin)

/-- A single-sentinel stream contains exactly one invalid item. -/
theorem good_stream_count {P : Type} (valid : P → Bool) (sent : P)
    (hs : valid sent = false) (xs : List P)
    (h : good_stream valid sent xs) :
    xs.countP (fun p => !valid p) = 1 := by
  obtain ⟨items, rfl, hv⟩ := h
  rw [List.countP_append]
  have h0 : items.countP (fun p => !valid p) = 0 := by
    rw [List.countP_eq_zero]
    intro a ha
    simp [hv a ha]
  simp [h0, hs]

/-- C2: a stage worker that pulls the sentinel pushes exactly one
sentinel downstream and returns (first conjunct: anything after the
sentinel is never pulled), and consequently, for a chain of
validity-preserving stages fed one poison pill, every edge of the
pipeline carries exactly one poison pill, as its last element (second
conjunct, for every stage prefix). -/
theorem C2_sentinel_propagates_once {P : Type} (valid : P → Bool) (sent : P)
    (stages : List (P → P)) (input : List P)
    (hs : valid sent = false)
    (hf : ∀ f ∈ stages, ∀ p, valid p = true → valid (f p) = true)
    (hin : good_stream valid sent input) :
    (∀ (f : P → P) (items : List P) (s : P) (rest : List P),
        (∀ p ∈ items, valid p = true) → valid s = false →
        stage_run f valid sent (items ++ s :: rest) = items.map f ++ [sent]) ∧
    ∀ k, good_stream valid sent (pipeline_run valid sent (stages.take k) input) ∧
      (pipeline_run valid sent (stages.take k) input).countP
          (fun p => !valid p) = 1 := by
  refine ⟨fun f items s rest hv hsv =>
    stage_run_valid_append f valid sent items s rest hv hsv, ?_⟩
  intro k
  have htake : ∀ f ∈ stages.take k, ∀ p, valid p = true → valid (f p) = true :=
    fun f hfm => hf f ((List.take_prefix k stages).subset hfm)
  have hgood := pipeline_run_good valid sent hs (stages.take k) htake input hin
  exact ⟨hgood, good_stream_count valid sent hs _ hgood⟩

/-- C2 witness: a two-stage pipeline over natural numbers with sentinel
`0`, fed one valid item and the pill; both edges after the full chain
carry exactly one pill. -/
theorem C2_sentinel_propagates_once_witness :
    ((fun n : Nat => decide (0 < n)) 0 = false) ∧
      good_stream (fun n : Nat => decide (0 < n)) 0
        (pipeline_run (fun n : Nat => decide (0 < n)) 0
          ([fun n => n + 1, fun n => n + 2].take 2) [5, 0]) ∧
      (pipeline_run (fun n : Nat => decide (0 < n)) 0
          ([fun n => n + 1, fun n => n + 2].take 2) [5, 0]).countP
          (fun p => !(fun n : Nat => decide (0 < n)) p) = 1 := by
  have hs : (fun n : Nat => decide (0 < n)) 0 = false := rfl
  have hf : ∀ f ∈ [fun n : Nat => n + 1, fun n => n + 2], ∀ p,
      (fun n : Nat => decide (0 < n)) p = true →
      (fun n : Nat => decide (0 < n)) (f p) = true := by
    intro f hfm p hp
    simp only [List.mem_cons, List.mem_singleton, List.not_mem_nil, or_false] at hfm
    rcases hfm with rfl | rfl <;> simp
  have hin : good_stream (fun n : Nat => decide (0 < n)) 0 [5, 0] :=
    ⟨[5], rfl, by decide⟩
  have h := C2_sentinel_propagates_once (fun n : Nat => decide (0 < n)) 0
    [fun n => n + 1, fun n => n + 2] [5, 0] hs hf hin
  exact ⟨hs, (h.2 2).1, (h.2 2).2⟩

/-- C3 counterexample: a run whose first pull raises a CUDA bad_alloc
re-raises `stage_runtime_error` and logs the cause, but its downstream
pushes are empty — no sentinel is pushed in the error path, contrary to
the claim. -/
theorem C3_no_sentinel_on_error :
    (preloader_loop (fun n : Nat => n) 0
        [PullEvent.bad_alloc "oom"]).raised =
        some "preloader_stage::run() failed" ∧
      (preloader_loop (fun n : Nat => n) 0
        [PullEvent.bad_alloc "oom"]).outputs = [] ∧
      ¬ (0 ∈ (preloader_loop (fun n : Nat => n) 0
        [PullEvent.bad_alloc "oom"]).outputs) := by
  refine ⟨rfl, rfl, ?_⟩
  simp [preloader_loop]

/-- The preloader loop over a list of valid items followed by any tail:
the items are uploaded and pushed, and logs and outcome come from the
tail. -/
theorem preloader_loop_items_append {P Q : Type} (upload : P → Q) (sentQ : Q)
    (items : List P) (rest : List (PullEvent P)) :
    (preloader_loop upload sentQ (items.map PullEvent.item ++ rest)).outputs =
        items.map upload ++ (preloader_loop upload sentQ rest).outputs ∧
      (preloader_loop upload sentQ (items.map PullEvent.item ++ rest)).logs =
        (preloader_loop upload sentQ rest).logs ∧
      (preloader_loop upload sentQ (items.map PullEvent.item ++ rest)).raised =
        (preloader_loop upload sentQ rest).raised := by
  induction items with
  | nil => simp
  | cons p ps ih => simp [preloader_loop, ih]

/-- C3 (amended): when a CUDA bad_alloc, invalid argument or runtime
error interrupts `preloader_stage::run` after any number of valid
items, the worker logs the cause at fatal and re-raises
`stage_runtime_error`; the error path pushes nothing further — in
particular no sentinel — downstream. -/
theorem C3_error_logged_and_reraised {P Q : Type} (upload : P → Q) (sentQ : Q)
    (items : List P) (m : String) :
    ((preloader_loop upload sentQ
        (items.map PullEvent.item ++ [PullEvent.bad_alloc m])).outputs =
          items.map upload ∧
      (preloader_loop upload sentQ
        (items.map PullEvent.item ++ [PullEvent.bad_alloc m])).logs =
          ["preloader_stage::run() encountered a bad_alloc: " ++ m] ∧
      (preloader_loop upload sentQ
        (items.map PullEvent.item ++ [PullEvent.bad_alloc m])).raised =
          some "preloader_stage::run() failed") ∧
    ((preloader_loop upload sentQ
        (items.map PullEvent.item ++ [PullEvent.invalid_argument m])).outputs =
          items.map upload ∧
      (preloader_loop upload sentQ
        (items.map PullEvent.item ++ [PullEvent.invalid_argument m])).logs =
          ["preloader_stage::run() passed an invalid argument to the CUDA runtime: " ++ m] ∧
      (preloader_loop upload sentQ
        (items.map PullEvent.item ++ [PullEvent.invalid_argument m])).raised =
          some "preloader_stage::run() failed") ∧
    ((preloader_loop upload sentQ
        (items.map PullEvent.item ++ [PullEvent.runtime_error m])).outputs =
          items.map upload ∧
      (preloader_loop upload sentQ
        (items.map PullEvent.item ++ [PullEvent.runtime_error m])).logs =
          ["preloader_stage::run() caused a CUDA runtime error: " ++ m] ∧
      (preloader_loop upload sentQ
        (items.map PullEvent.item ++ [PullEvent.runtime_error m])).raised =
          some "preloader_stage::run() failed") := by
  refine ⟨?_, ?_, ?_⟩ <;>
    · obtain ⟨ho, hl, hr⟩ := preloader_loop_items_append upload sentQ items _
      rw [ho, hl, hr]
      exact ⟨by simp [preloader_loop], by simp [preloader_loop],
        by simp [preloader_loop]⟩

/-- C7: the legacy `SinkStage::run` saves every valid image to the
hard-coded path, regardless of the directory configured at
construction; the path is not the specified
`target_dir/prefix_000000.tif` name, and the loop stops at the poison
pill.  Shown at a concrete run configured with directory "/out" and
fed one valid image of index 0 followed by the pill. -/
theorem C7_sink_ignores_configured_path :
    SinkStage_run "/out" [⟨0, true⟩, ⟨1, false⟩] =
        [(hardcoded_sink_path, 0)] ∧
      hardcoded_sink_path ≠ "/out/" ++ spec_slice_filename "vol" 0 "tif" ∧
      (∀ dir : String, SinkStage_run dir [⟨0, true⟩, ⟨1, false⟩] =
        [(hardcoded_sink_path, 0)]) := by
  refine ⟨rfl, by decide, fun dir => rfl⟩

/-- C8: for every valid host projection, the preloader body allocates a
pool buffer of the projection extents, creates a concurrent stream,
zero-fills before copying (both on that stream), synchronizes the
stream exactly once and does so before the push, and pushes a valid
device projection carrying that stream with width, height, index and
angle unchanged. -/
theorem C8_preloader_uploads_and_forwards (p : host_p) (s : Nat) :
    (preloader_process_one p s).countP is_sync = 1 ∧
      ((preloader_process_one p s).takeWhile
        (fun e => !is_push e)).countP is_sync = 1 ∧
      ((preloader_process_one p s).takeWhile
        (fun e => !is_copy e)).countP is_fill = 1 ∧
      upload_event.pool_allocate p.width p.height ∈ preloader_process_one p s ∧
      upload_event.create_concurrent_stream s ∈ preloader_process_one p s ∧
      upload_event.fill_async s p.width p.height ∈ preloader_process_one p s ∧
      upload_event.copy_async s p.width p.height ∈ preloader_process_one p s ∧
      upload_event.push ⟨p.width, p.height, p.idx, p.phi, true, s⟩ ∈
        preloader_process_one p s := by
  refine ⟨rfl, rfl, rfl, ?_, ?_, ?_, ?_, ?_⟩ <;> simp [preloader_process_one]

/-- C9: `main` launches one pipeline per visible device; each one
references the same task queue and the same shared sink, and its
stages are connected in the order Source, Preloader, Weighting,
Filter, Reconstruction, Sink. -/
theorem C9_one_pipeline_per_device (n q s : Nat) :
    (main_launch n q s).length = n ∧
      main_launch n q s =
        (List.range n).map
          (fun d => some ⟨q, s, d, connected_stage_order⟩) ∧
      ∀ pi ∈ main_launch n q s, ∃ p, pi = some p ∧
        p.queue = q ∧ p.sink = s ∧
        p.stages = [stage_kind.source, stage_kind.preloader,
          stage_kind.weighting, stage_kind.filtering,
          stage_kind.reconstruction, stage_kind.sink] := by
  refine ⟨by simp [main_launch], by simp [main_launch, launch_pipeline], ?_⟩
  intro pi hpi
  obtain ⟨d, _, rfl⟩ := List.mem_map.mp hpi
  exact ⟨⟨q, s, d, connected_stage_order⟩, rfl, rfl, rfl, rfl⟩
